import Mathlib

/-!
Verification development for the on-demand content gateway in `src/app.py`.

The file shallowly embeds the request-to-artifact pipeline of the program:
the bot/abuse filter (`block_crawlers`, `is_meta_ip`), the path sanitizer
and cache-key deriver (`get_cache_path`), the artifact store
(`get_cached_content`, `cache_content`), the content generator
(`generate_content`) and the request orchestrator (`dynamic_page`).
Pure Python string operations are re-implemented on `List Char` so that
every definition is executable and kernel-reducible; machine integers are
`Nat` with explicit `% 2 ^ 32` masking where the MD5 algorithm overflows.
-/

set_option maxRecDepth 100000

namespace Anysite

/-! ### Python string primitives, re-implemented structurally

These model the exact semantics of the Python operations the source uses:
substring containment (`needle in hay`), `str.replace`, `str.split` on a
single separator character, `str.strip`, `str.lower` (the inputs the
program compares are ASCII), `str.endswith` and slicing `s[:-n]`.
-/

/-- Front-segment test on character lists: `listPre n h` is true when `n`
is an initial segment of `h`. -/
def listPre : List Char → List Char → Bool
  | [], _ => true
  | _ :: _, [] => false
  | a :: as, b :: bs => a == b && listPre as bs

/-- Python substring containment `needle in hay` on character lists. -/
def listContainsSeq : List Char → List Char → Bool
  | n, [] => n.isEmpty
  | n, c :: t => listPre n (c :: t) || listContainsSeq n t

/-- Python `needle in hay` on strings. -/
def strContainsStr (hay needle : String) : Bool :=
  listContainsSeq needle.toList hay.toList

/-- Fuel-driven structural version of Python `str.replace` on lists: scans
left to right and replaces non-overlapping occurrences of `pat`.  The fuel
is the length of the scanned list, which suffices for the non-empty
patterns the program uses. -/
def replaceFuel (pat rep : List Char) : Nat → List Char → List Char
  | 0, l => l
  | _, [] => []
  | fuel + 1, c :: t =>
    if listPre pat (c :: t) then rep ++ replaceFuel pat rep fuel ((c :: t).drop pat.length)
    else c :: replaceFuel pat rep fuel t

/-- Python `s.replace(pat, rep)` for a non-empty pattern. -/
def pyReplace (s pat rep : String) : String :=
  String.mk (replaceFuel pat.toList rep.toList s.toList.length s.toList)

/-- Python `s.split(sep)` for a single separator character: keeps empty
pieces, `""` splits to `[""]`. -/
def splitOnChar (sep : Char) : List Char → List (List Char)
  | [] => [[]]
  | c :: t =>
    let r := splitOnChar sep t
    if c == sep then [] :: r
    else
      match r with
      | [] => [[c]]
      | h :: t2 => (c :: h) :: t2

/-- ASCII whitespace stripped by Python `str.strip()` (the program only
strips generated HTML; non-ASCII whitespace is not modelled). -/
def isPySpace (c : Char) : Bool :=
  c == ' ' || c == '\t' || c == '\n' || c == '\r' || c == '\x0b' || c == '\x0c'

/-- Python `s.strip()`. -/
def stripChars (l : List Char) : List Char :=
  ((l.dropWhile isPySpace).reverse.dropWhile isPySpace).reverse

/-- Join a list of lines with a newline, Python `'\n'.join(lines)`. -/
def joinNl : List (List Char) → List Char
  | [] => []
  | [l] => l
  | l :: ls => l ++ '\n' :: joinNl ls

/-- ASCII lowering of one character; models Python `str.lower` on the
ASCII range, which covers every string the program compares (the
user-agent denylist is ASCII). -/
def asciiLower (c : Char) : Char :=
  if 65 ≤ c.toNat ∧ c.toNat ≤ 90 then Char.ofNat (c.toNat + 32) else c

/-- Python `s.lower()` restricted to the ASCII range. -/
def pyLower (s : String) : String := String.mk (s.toList.map asciiLower)

/-- Python `s.endswith(t)`. -/
def pyEndsWith (s t : String) : Bool :=
  listPre t.toList.reverse s.toList.reverse

/-- Python slice `s[:-n]`: all but the last `n` characters (empty when the
string has at most `n` characters, exactly as in Python). -/
def dropLastN (s : String) (n : Nat) : String :=
  String.mk (s.toList.take (s.toList.length - n))

/-! ### UTF-8 encoding

Models Python `str.encode()`.  The sanitized paths the program hashes are
ASCII, but the encoder is written for the full range. -/

/-- UTF-8 bytes of a single code point. -/
def utf8Char (c : Char) : List Nat :=
  let n := c.toNat
  if n < 128 then [n]
  else if n < 2048 then [192 + n / 64, 128 + n % 64]
  else if n < 65536 then [224 + n / 4096, 128 + n / 64 % 64, 128 + n % 64]
  else [240 + n / 262144, 128 + n / 4096 % 64, 128 + n / 64 % 64, 128 + n % 64]

/-- UTF-8 bytes of a string, Python `s.encode()`. -/
def strBytes (s : String) : List Nat := (s.toList.map utf8Char).flatten

/-! ### MD5 (RFC 1321)

Executable embedding of `hashlib.md5`: 32-bit words are `Nat` masked by
`% 2 ^ 32`, bitwise complement of a masked word is subtraction from
`2 ^ 32 - 1`. -/

/-- Modulus of a 32-bit word. -/
def M32 : Nat := 4294967296

/-- Bitwise complement of a word already reduced below `2 ^ 32`. -/
def w32not (x : Nat) : Nat := 4294967295 - x

/-- Left rotation of a 32-bit word. -/
def rotl32 (x s : Nat) : Nat :=
  ((x % M32) * 2 ^ s) % M32 + (x % M32) / 2 ^ (32 - s)

/-- The 64 MD5 sine-derived constants. -/
def md5K : List Nat :=
  [0xd76aa478, 0xe8c7b756, 0x242070db, 0xc1bdceee,
   0xf57c0faf, 0x4787c62a, 0xa8304613, 0xfd469501,
   0x698098d8, 0x8b44f7af, 0xffff5bb1, 0x895cd7be,
   0x6b901122, 0xfd987193, 0xa679438e, 0x49b40821,
   0xf61e2562, 0xc040b340, 0x265e5a51, 0xe9b6c7aa,
   0xd62f105d, 0x02441453, 0xd8a1e681, 0xe7d3fbc8,
   0x21e1cde6, 0xc33707d6, 0xf4d50d87, 0x455a14ed,
   0xa9e3e905, 0xfcefa3f8, 0x676f02d9, 0x8d2a4c8a,
   0xfffa3942, 0x8771f681, 0x6d9d6122, 0xfde5380c,
   0xa4beea44, 0x4bdecfa9, 0xf6bb4b60, 0xbebfbc70,
   0x289b7ec6, 0xeaa127fa, 0xd4ef3085, 0x04881d05,
   0xd9d4d039, 0xe6db99e5, 0x1fa27cf8, 0xc4ac5665,
   0xf4292244, 0x432aff97, 0xab9423a7, 0xfc93a039,
   0x655b59c3, 0x8f0ccc92, 0xffeff47d, 0x85845dd1,
   0x6fa87e4f, 0xfe2ce6e0, 0xa3014314, 0x4e0811a1,
   0xf7537e82, 0xbd3af235, 0x2ad7d2bb, 0xeb86d391]

/-- The 64 MD5 per-round rotation amounts. -/
def md5S : List Nat :=
  [7, 12, 17, 22, 7, 12, 17, 22, 7, 12, 17, 22, 7, 12, 17, 22,
   5, 9, 14, 20, 5, 9, 14, 20, 5, 9, 14, 20, 5, 9, 14, 20,
   4, 11, 16, 23, 4, 11, 16, 23, 4, 11, 16, 23, 4, 11, 16, 23,
   6, 10, 15, 21, 6, 10, 15, 21, 6, 10, 15, 21, 6, 10, 15, 21]

/-- Running MD5 state: four 32-bit words. -/
structure MD5State where
  a : Nat
  b : Nat
  c : Nat
  d : Nat

/-- Round function and message index of round `i`. -/
def md5FG (i b c d : Nat) : Nat × Nat :=
  if i < 16 then ((b &&& c) ||| (w32not b &&& d), i)
  else if i < 32 then ((d &&& b) ||| (w32not d &&& c), (5 * i + 1) % 16)
  else if i < 48 then (b ^^^ c ^^^ d, (3 * i + 5) % 16)
  else (c ^^^ (b ||| w32not d), (7 * i) % 16)

/-- One MD5 round on the state, given the sixteen message words. -/
def md5Round (M : List Nat) (st : MD5State) (i : Nat) : MD5State :=
  let fg := md5FG i st.b st.c st.d
  let f := (fg.1 + st.a + md5K.getD i 0 + M.getD fg.2 0) % M32
  ⟨st.d, (st.b + rotl32 f (md5S.getD i 0)) % M32, st.b, st.c⟩

/-- Little-endian 32-bit words of a 64-byte chunk. -/
def chunkWords : List Nat → List Nat
  | b0 :: b1 :: b2 :: b3 :: rest =>
    (b0 + 256 * b1 + 65536 * b2 + 16777216 * b3) :: chunkWords rest
  | _ => []

/-- Process one 64-byte chunk. -/
def md5Chunk (st : MD5State) (chunk : List Nat) : MD5State :=
  let M := chunkWords chunk
  let r := (List.range 64).foldl (md5Round M) st
  ⟨(st.a + r.a) % M32, (st.b + r.b) % M32, (st.c + r.c) % M32, (st.d + r.d) % M32⟩

/-- Fuel-driven split of the padded message into 64-byte chunks (the fuel
keeps the recursion structural so the kernel can evaluate it). -/
def toChunksFuel : Nat → List Nat → List (List Nat)
  | 0, _ => []
  | _, [] => []
  | fuel + 1, l => l.take 64 :: toChunksFuel fuel (l.drop 64)

/-- Split a byte list into 64-byte chunks. -/
def toChunks (l : List Nat) : List (List Nat) := toChunksFuel (l.length + 1) l

/-- Little-endian bytes of a 64-bit length field. -/
def le64 (n : Nat) : List Nat :=
  [n % 256, n / 256 % 256, n / 65536 % 256, n / 16777216 % 256,
   n / 4294967296 % 256, n / 1099511627776 % 256,
   n / 281474976710656 % 256, n / 72057594037927936 % 256]

/-- MD5 padding: `0x80`, zeros to 56 mod 64, then the bit length. -/
def md5Pad (msg : List Nat) : List Nat :=
  let len := msg.length
  let zeros := (119 - len % 64) % 64
  msg ++ 128 :: List.replicate zeros 0 ++ le64 ((len * 8) % 18446744073709551616)

/-- Initial MD5 state. -/
def md5Init : MD5State := ⟨0x67452301, 0xefcdab89, 0x98badcfe, 0x10325476⟩

/-- Little-endian bytes of one 32-bit word. -/
def le32 (n : Nat) : List Nat :=
  [n % 256, n / 256 % 256, n / 65536 % 256, n / 16777216 % 256]

/-- MD5 digest (16 bytes) of a byte list. -/
def md5BytesOf (msg : List Nat) : List Nat :=
  let st := (toChunks (md5Pad msg)).foldl md5Chunk md5Init
  le32 st.a ++ le32 st.b ++ le32 st.c ++ le32 st.d

/-- Lower-case hexadecimal digit character of a nibble: codes 48-57 for
the decimal digits, 97-102 for the letters. -/
def hexChar (n : Nat) : Char :=
  if n < 10 then Char.ofNat (48 + n) else Char.ofNat (87 + n)

/-- Two hex characters of one byte (`%02x`); the high nibble is masked so
the rendering is total, which coincides with Python on real bytes. -/
def byteHex (b : Nat) : List Char := [hexChar (b / 16 % 16), hexChar (b % 16)]

/-- Hex characters of a byte list. -/
def bytesHex (l : List Nat) : List Char := (l.map byteHex).flatten

/-- Python `hashlib.md5(s.encode()).hexdigest()`. -/
def md5Hex (s : String) : String := String.mk (bytesHex (md5BytesOf (strBytes s)))

/-- MD5 test vector: the RFC 1321 digest of the empty string. -/
theorem md5_rfc_empty : md5Hex "" = "d41d8cd98f00b204e9800998ecf8427e" := by decide

/-- MD5 test vector: the RFC 1321 digest of "abc". -/
theorem md5_rfc_abc : md5Hex "abc" = "900150983cd24fb0d6963f7d28e17f72" := by decide

/-! ### Cache-key derivation (`get_cache_path`)

Source lines 63-72.  The lenient sanitizer is
`re.sub(r'[^a-zA-Z0-9-_.]', '', path)`: every character outside the
literal class letter / digit / dash / underscore / dot is removed (inside
the Python class the dash after `9` is literal).  The result is hashed
with MD5 and joined to the cache directory by `os.path.join`. -/

/-- Cache directory constant of the program. -/
def CACHE_DIR : String := "/cache"

/-- Membership in the lenient character class `[a-zA-Z0-9-_.]`. -/
def isLenientChar (c : Char) : Bool :=
  (97 ≤ c.toNat && c.toNat ≤ 122) || (65 ≤ c.toNat && c.toNat ≤ 90) ||
    (48 ≤ c.toNat && c.toNat ≤ 57) || c == '-' || c == '_' || c == '.'

/-- Lenient sanitization: `re.sub` deletes every character outside the
class, keeping the rest in order. -/
def sanitizeLenient (s : String) : String :=
  String.mk (s.toList.filter isLenientChar)

/-- POSIX `os.path.join(a, b)` for two components: an absolute second
component replaces the first, otherwise a single separator is inserted
unless one is already present. -/
def pyPathJoin (a b : String) : String :=
  if b.toList.head? = some '/' then b
  else if a = "" then a ++ b
  else if a.toList.getLast? = some '/' then a ++ b
  else a ++ "/" ++ b

/-- Source `get_cache_path`: MD5 hex digest of the sanitized path, with a
`.json` suffix, inside the cache directory. -/
def get_cache_path (path : String) : String :=
  pyPathJoin CACHE_DIR (md5Hex (sanitizeLenient path) ++ ".json")

/-! ### Artifact store (`get_cached_content`, `cache_content`)

Source lines 74-97.  The filesystem is modelled as a map from file names
to parsed cache entries; `json.dump` followed by `json.load` on the
two-string-field dictionary round-trips exactly, so the entry is stored
structurally.  OS-level write failures (the `IOError` branch, which only
logs) and corrupt cache files (the read branch returns `None`) are
environment faults outside this model of normal operation. -/

/-- One cache entry: the dictionary `content` / `timestamp` written by
`cache_content`. -/
structure CacheFile where
  content : String
  timestamp : String
deriving DecidableEq

/-- The cache directory state: file name to entry. -/
def Store : Type := String → Option CacheFile

/-- The empty cache directory. -/
def emptyStore : Store := fun _ => none

/-- Source `get_cached_content`: read the entry file for the path, if it
exists, and return its `content` field. -/
def get_cached_content (path : String) (fs : Store) : Option String :=
  match fs (get_cache_path path) with
  | some f => some f.content
  | none => none

/-- Source `cache_content`: write the content together with the current
timestamp, overwriting any previous entry for the same file. -/
def cache_content (path content now : String) (fs : Store) : Store :=
  fun k => if k = get_cache_path path then some ⟨content, now⟩ else fs k

/-! ### Bot/abuse filter (`is_meta_ip`, `block_crawlers`)

Source lines 12-49.  `ipaddress.ip_address` is modelled for IPv4 (strict
octets, no leading zeros, each at most 255); strings that parse in Python
as IPv6 are treated as parse failures here, which yields the same filter
decision because every configured range is IPv4 and Python membership of
an IPv6 address in an IPv4 network is `False`. -/

/-- The user-agent substring denylist of the program. -/
def BLOCKED_USER_AGENTS : List String :=
  ["CCBot", "GPTBot", "ChatGPT-User", "Google-Extended", "anthropic-ai",
   "Claude-Web", "Omgilibot", "FacebookBot", "Bytespider", "crawler",
   "spider", "bot", "scraper", "archive.org", "Googlebot", "Bingbot",
   "Slurp", "DuckDuckBot", "Baiduspider", "YandexBot", "Sogou"]

/-- The configured CIDR denylist of the program. -/
def META_IP_RANGES : List String :=
  ["157.240.0.0/16", "69.63.176.0/20", "66.220.144.0/20", "66.220.144.0/21",
   "69.63.184.0/21", "69.63.176.0/21", "74.119.76.0/22"]

/-- Decimal digit test used by the address parser. -/
def isDigitChar (c : Char) : Bool := 48 ≤ c.toNat && c.toNat ≤ 57

/-- Decimal value of a digit list. -/
def digitsToNat (l : List Char) : Nat :=
  l.foldl (fun acc c => 10 * acc + (c.toNat - 48)) 0

/-- Parse one IPv4 octet the way `ipaddress` does: one to three decimal
digits, no leading zero, value at most 255. -/
def parseOctet (s : String) : Option Nat :=
  let cs := s.toList
  if cs.isEmpty then none
  else if 3 < cs.length then none
  else if !cs.all isDigitChar then none
  else if cs.head? = some '0' ∧ 1 < cs.length then none
  else if digitsToNat cs ≤ 255 then some (digitsToNat cs) else none

/-- Parse a dotted-quad IPv4 address to its 32-bit value. -/
def parseIPv4 (s : String) : Option Nat :=
  match ((splitOnChar '.' s.toList).map String.mk).map parseOctet with
  | [some a, some b, some c, some d] => some (((a * 256 + b) * 256 + c) * 256 + d)
  | _ => none

/-- Parse a network mask length: decimal, no leading zero, at most 32. -/
def parsePrefixLen (s : String) : Option Nat :=
  let cs := s.toList
  if cs.isEmpty then none
  else if !cs.all isDigitChar then none
  else if cs.head? = some '0' ∧ 1 < cs.length then none
  else if digitsToNat cs ≤ 32 then some (digitsToNat cs) else none

/-- Membership of an address in a network: the leading mask-length bits
agree. -/
def ipInNet (ip net plen : Nat) : Bool :=
  ip / 2 ^ (32 - plen) == net / 2 ^ (32 - plen)

/-- Parse a CIDR range as strict `ipaddress.ip_network` does: dotted quad,
optional mask length, host bits must be zero. -/
def parseCIDR (s : String) : Option (Nat × Nat) :=
  match (splitOnChar '/' s.toList).map String.mk with
  | [a, p] =>
    match parseIPv4 a, parsePrefixLen p with
    | some ip, some pl => if ip % 2 ^ (32 - pl) = 0 then some (ip, pl) else none
    | _, _ => none
  | [a] => (parseIPv4 a).map (fun ip => (ip, 32))
  | _ => none

/-- Lazy scan of the range list, with the Python exception semantics: a
malformed range raises `ValueError`, which the caller catches, so the
whole check yields false at the first malformed range that is reached. -/
def anyRange : List String → Nat → Bool
  | [], _ => false
  | r :: rs, ip =>
    match parseCIDR r with
    | none => false
    | some np => ipInNet ip np.1 np.2 || anyRange rs ip

/-- Source `is_meta_ip`: parse the client address, failing open (allow) on
a parse error, then test membership in each configured range. -/
def is_meta_ip (s : String) : Bool :=
  match parseIPv4 s with
  | none => false
  | some ip => anyRange META_IP_RANGES ip

/-- Agent half of source `block_crawlers`: the lowered user agent contains
some lowered denylist entry. -/
def agentBlocked (ua : String) : Bool :=
  BLOCKED_USER_AGENTS.any (fun b => strContainsStr (pyLower ua) (pyLower b))

/-- Source `block_crawlers` as a decision: deny when the agent matches or
the client address is in a configured range. -/
def block_crawlers (ua addr : String) : Bool :=
  agentBlocked ua || is_meta_ip addr

/-! ### Content generator (`generate_content`)

Source lines 99-169.  The outbound HTTP exchange is an environment input:
either a transport error (a `requests` exception before a response
exists) or a response with a status code and, when the body is valid
JSON, a parsed body whose optional `choices` list carries the
`message.content` strings.  The prompt template lives in `prompt.txt`,
which is not under `src/`.  Library-produced diagnostic strings (the
`str(e)` of an `HTTPError`, the `JSONDecodeError` text, the dictionary
repr) are modelled as fixed renderings; no claim depends on their exact
spelling. -/

/-- Parsed JSON body of the generation response: the optional `choices`
list, each element standing for `choices[i].message.content`. -/
structure ApiBody where
  choices : Option (List String)
deriving DecidableEq

/-- One outbound generation exchange as seen by `generate_content`. -/
inductive GenOutcome where
  | netError (e : String)
  | response (status : Nat) (body : Option ApiBody)
deriving DecidableEq

/-- Modelled from the spec: the prompt template (loaded from `prompt.txt`,
which is not under `src/`) is a static string with a `\x7bpath\x7d`
substitution point filled by `str.format`. -/
def DEFAULT_PROMPT : String :=
  "Generate a complete HTML page for the site path \x7bpath\x7d."

/-- Prompt built by `DEFAULT_PROMPT.format(path=path)`. -/
def promptFor (path : String) : String :=
  pyReplace DEFAULT_PROMPT "\x7bpath\x7d" path

/-- The templated throttling fragment returned on HTTP 429. -/
def rateLimitedMsg : String :=
  "<h1>Error</h1><p>Rate limited by OpenRouter API. Please try again in a few moments.</p>"

/-- Error fragment for a `requests` exception (transport error or
`raise_for_status`). -/
def apiFailMsg (e : String) : String :=
  "<h1>Error</h1><p>API request failed: " ++ e ++ "</p>"

/-- Error fragment for a response without usable `choices`. -/
def invalidStructureMsg (r : String) : String :=
  "<h1>Error</h1><p>Invalid API response structure: " ++ r ++ "</p>"

/-- Error fragment for any other exception while reading the response. -/
def genFailMsg (e : String) : String :=
  "<h1>Error</h1><p>Failed to generate content: " ++ e ++ "</p>"

/-- Rendering of the `str(e)` of the `HTTPError` raised by
`raise_for_status` (library text, modelled as a function of the status). -/
def httpErrorText (status : Nat) : String := toString status ++ " Error"

/-- Rendering of the `JSONDecodeError` text raised by `response.json()`
on a malformed body (library text). -/
def jsonDecodeErrText : String := "Expecting value"

/-- Rendering of the Python dictionary repr embedded in the
invalid-structure message (library text). -/
def reprApiBody (b : ApiBody) : String :=
  match b.choices with
  | none => "\x7b\x7d"
  | some cs => "\x7b choices: " ++ toString cs.length ++ " items \x7d"

/-- Post-processing of generated text, source lines 153-161: delete the
code-fence markers, drop every line containing a backtick (the line test
for the sequence backtick-close-paren-semicolon is kept although the
plain backtick test subsumes it), and strip surrounding whitespace. -/
def clean_content (c : String) : String :=
  let c1 := pyReplace (pyReplace c "```html" "") "```" ""
  let kept := (splitOnChar '\n' c1.toList).filter
    (fun line => !(listContainsSeq ['`', ')', ';'] line) && !(listContainsSeq ['`'] line))
  String.mk (stripChars (joinNl kept))

/-- Source `generate_content`: returns the prompt and either the cleaned
generated text or a templated error fragment; it never raises. -/
def generate_content (g : GenOutcome) (path : String) : String × String :=
  let prompt := promptFor path
  match g with
  | .netError e => (prompt, apiFailMsg e)
  | .response status body =>
    if status = 429 then (prompt, rateLimitedMsg)
    else if 400 ≤ status ∧ status < 600 then (prompt, apiFailMsg (httpErrorText status))
    else
      match body with
      | none => (prompt, genFailMsg jsonDecodeErrText)
      | some b =>
        match b.choices with
        | none => (prompt, invalidStructureMsg (reprApiBody b))
        | some [] => (prompt, invalidStructureMsg (reprApiBody b))
        | some (c :: _) => (prompt, clean_content c)

/-! ### Strict validation and the request orchestrator (`dynamic_page`)

Source lines 181-226.  Strict validation is
`re.match(r'^[a-zA-Z0-9-_/]+$', base_path)`: in Python the `$` anchor
also matches just before one newline at the very end of the string, so
the test succeeds exactly when the path, after discarding at most one
trailing newline, is non-empty and drawn from the class.  The `title`
variable and the two debug template arguments are computed by the source
but the template only interpolates `content`, so they do not appear in
the response model. -/

/-- Membership in the strict character class `[a-zA-Z0-9-_/]`. -/
def isStrictChar (c : Char) : Bool :=
  (97 ≤ c.toNat && c.toNat ≤ 122) || (65 ≤ c.toNat && c.toNat ≤ 90) ||
    (48 ≤ c.toNat && c.toNat ≤ 57) || c == '-' || c == '_' || c == '/'

/-- Python `re.match(r'^[a-zA-Z0-9-_/]+$', s)` as a Boolean: the dollar
anchor tolerates a single final newline. -/
def strictMatch (s : String) : Bool :=
  let l := s.toList
  if l.getLast? = some '\n' then !l.dropLast.isEmpty && l.dropLast.all isStrictChar
  else !l.isEmpty && l.all isStrictChar

/-- Rendering of `BASE_TEMPLATE` with the content interpolated (the only
variable the template uses). -/
def render_base (content : String) : String :=
  "\n<!DOCTYPE html>\n    " ++ content ++ "\n"

/-- Observable operations a request performs on the store and the
generation service, in order. -/
inductive Event where
  | cacheRead (file : String)
  | genCall (path : String)
  | cacheWrite (file : String) (content : String)
deriving DecidableEq

/-- The response of one request. -/
inductive Response where
  | forbidden (msg : String)
  | redirect (location : String)
  | badRequest
  | ok (body : String)
deriving DecidableEq

/-- Per-request environment: the request metadata the filter inspects,
the outcome the generation service would produce, and the wall clock
used for the cache timestamp. -/
structure Env where
  userAgent : String
  remoteAddr : String
  gen : GenOutcome
  now : String

/-- Result of one request: response, final store, operation trace. -/
structure RequestResult where
  resp : Response
  store : Store
  events : List Event

/-- Cache-miss tail of `dynamic_page`: generate, cache unconditionally,
respond with the generated content. -/
def genBranch (env : Env) (fs : Store) (path cp : String) : RequestResult :=
  let pc := generate_content env.gen path
  ⟨.ok (render_base pc.2), cache_content path pc.2 env.now fs,
    [.cacheRead cp, .genCall path, .cacheWrite cp pc.2]⟩

/-- Source `dynamic_page`: redirect paths without the `.html` suffix,
validate the stripped path, serve a truthy cached entry, otherwise
generate and cache. -/
def dynamic_page (env : Env) (fs : Store) (path : String) : RequestResult :=
  if pyEndsWith path ".html" = false then ⟨.redirect ("/" ++ path ++ ".html"), fs, []⟩
  else if strictMatch (dropLastN path 5) = false then ⟨.badRequest, fs, []⟩
  else
    match get_cached_content path fs with
    | some cached =>
      if cached ≠ "" then
        ⟨.ok (render_base cached), fs, [.cacheRead (get_cache_path path)]⟩
      else genBranch env fs path (get_cache_path path)
    | none => genBranch env fs path (get_cache_path path)

/-- One full request through the pipeline: the `before_request` filter
(agent check first, then address check), then `dynamic_page`. -/
def handle_request (env : Env) (fs : Store) (path : String) : RequestResult :=
  if agentBlocked env.userAgent then ⟨.forbidden "Crawlers not allowed", fs, []⟩
  else if is_meta_ip env.remoteAddr then ⟨.forbidden "Access denied", fs, []⟩
  else dynamic_page env fs path

/-- Number of outbound generation calls in a request trace. -/
def genCalls (r : RequestResult) : Nat :=
  r.events.countP (fun e => match e with | .genCall _ => true | _ => false)

/-- Specification-side reading of the strict validation contract: the
path matches the class entirely, except that the Python dollar anchor
also accepts exactly one trailing newline. -/
def pyFullMatchStrict (l : List Char) : Prop :=
  (l ≠ [] ∧ ∀ c ∈ l, isStrictChar c = true) ∨
  (∃ core, l = core ++ ['\n'] ∧ core ≠ [] ∧ ∀ c ∈ core, isStrictChar c = true)

/-- Hexadecimal digit predicate for lower-case digest characters. -/
def isHexChar (c : Char) : Bool :=
  (48 ≤ c.toNat && c.toNat ≤ 57) || (97 ≤ c.toNat && c.toNat ≤ 102)

/-! ### Helper lemmas -/

/-- Unfolding of `String.toList` on an explicit character list. -/
theorem toList_mk (l : List Char) : (String.mk l).toList = l := rfl

/-- String append is list append of the character data. -/
theorem toList_append (a b : String) : (a ++ b).toList = a.toList ++ b.toList := by
  cases a; cases b; rfl

/-- Length of a string built from an explicit character list. -/
theorem length_mk (l : List Char) : (String.mk l).length = l.length := rfl

/-- Negative form of the list emptiness test. -/
theorem isEmpty_false_iff {α : Type} {l : List α} : l.isEmpty = false ↔ l ≠ [] := by
  cases l <;> simp

/-- A successful front-segment match pins the first character. -/
theorem listPre_head {a b : Char} {n t : List Char}
    (h : listPre (a :: n) (b :: t) = true) : a = b := by
  rw [listPre, Bool.and_eq_true] at h
  exact beq_iff_eq.mp h.1

/-- The first character of a contained sequence occurs in the list. -/
theorem containsSeq_head_mem {a : Char} {n l : List Char}
    (h : listContainsSeq (a :: n) l = true) : a ∈ l := by
  induction l with
  | nil => simp [listContainsSeq, List.isEmpty] at h
  | cons c t ih =>
    rw [listContainsSeq, Bool.or_eq_true] at h
    rcases h with h1 | h2
    · rw [listPre_head h1]
      exact List.mem_cons_self _ _
    · exact List.mem_cons_of_mem _ (ih h2)

/-- Every character `hexChar` produces on a reduced nibble is a hex
digit. -/
theorem hexChar_isHex (n : Nat) : isHexChar (hexChar (n % 16)) = true := by
  have hlt : n % 16 < 16 := Nat.mod_lt _ (by decide)
  have hall : ∀ m, m < 16 → isHexChar (hexChar m) = true := by decide
  exact hall _ hlt

/-- Both characters of a byte rendering are hex digits. -/
theorem byteHex_all_hex (b : Nat) : (byteHex b).all isHexChar = true := by
  simp [byteHex, hexChar_isHex]

/-- Every character of a byte-list rendering is a hex digit. -/
theorem bytesHex_all_hex (l : List Nat) : (bytesHex l).all isHexChar = true := by
  induction l with
  | nil => rfl
  | cons b t ih =>
    have h1 := byteHex_all_hex b
    simp only [bytesHex, List.map_cons, List.flatten_cons, List.all_append] at *
    simp [h1, ih]

/-- A byte-list rendering has two characters per byte. -/
theorem bytesHex_length (l : List Nat) : (bytesHex l).length = 2 * l.length := by
  induction l with
  | nil => rfl
  | cons b t ih =>
    simp only [bytesHex, List.map_cons, List.flatten_cons, List.length_append] at *
    simp [byteHex, ih]
    omega

/-- The MD5 digest always has sixteen bytes (128 bits). -/
theorem md5BytesOf_length (m : List Nat) : (md5BytesOf m).length = 16 := by
  simp [md5BytesOf, le32]

/-- The hex digest always has 32 characters. -/
theorem md5Hex_length (s : String) : (md5Hex s).length = 32 := by
  show (bytesHex (md5BytesOf (strBytes s))).length = 32
  rw [bytesHex_length, md5BytesOf_length]

/-- Every character of the hex digest is a hex digit. -/
theorem md5Hex_all_hex (s : String) : (md5Hex s).toList.all isHexChar = true :=
  bytesHex_all_hex _

/-- A hex digit is not a separator, a backslash, or a dot. -/
theorem isHex_ne {c : Char} (h : isHexChar c = true) :
    c ≠ '/' ∧ c ≠ '\\' ∧ c ≠ '.' := by
  refine ⟨?_, ?_, ?_⟩ <;> (rintro rfl; exact absurd h (by decide))

/-- Evaluated shape of `get_cache_path`: always the cache directory, a
slash, the digest and the `.json` suffix. -/
theorem get_cache_path_eq (p : String) :
    get_cache_path p = "/cache/" ++ (md5Hex (sanitizeLenient p) ++ ".json") := by
  have hhex := md5Hex_all_hex (sanitizeLenient p)
  have hlen : (md5Hex (sanitizeLenient p)).toList.length = 32 := md5Hex_length _
  unfold get_cache_path pyPathJoin CACHE_DIR
  cases hm : (md5Hex (sanitizeLenient p)).toList with
  | nil => rw [hm] at hlen; simp at hlen
  | cons c cs =>
    have hchex : isHexChar c = true := by
      rw [List.all_eq_true] at hhex
      exact hhex c (by rw [hm]; exact List.mem_cons_self _ _)
    have hhead : ((md5Hex (sanitizeLenient p)) ++ ".json").toList.head? = some c := by
      rw [toList_append, hm]; rfl
    rw [if_neg, if_neg (by decide), if_neg (by decide)]
    · rw [show ("/cache" : String) ++ "/" = "/cache/" from by decide]
    · rw [hhead]
      intro hcontra
      have : c = '/' := by injection hcontra
      exact (isHex_ne hchex).1 this

/-- List-level characterization of the strict regex test. -/
theorem strictMatchL_iff (l : List Char) :
    ((if l.getLast? = some '\n' then !l.dropLast.isEmpty && l.dropLast.all isStrictChar
      else !l.isEmpty && l.all isStrictChar) = true) ↔ pyFullMatchStrict l := by
  induction l using List.reverseRecOn with
  | nil => simp [pyFullMatchStrict]
  | append_singleton as a _ =>
    rw [List.getLast?_concat, List.dropLast_concat]
    by_cases ha : a = '\n'
    · subst ha
      rw [if_pos rfl]
      unfold pyFullMatchStrict
      constructor
      · intro h
        rw [Bool.and_eq_true] at h
        refine Or.inr ⟨as, rfl, ?_, ?_⟩
        · rw [Bool.not_eq_true', isEmpty_false_iff] at h
          exact h.1
        · rw [List.all_eq_true] at h
          exact h.2
      · rintro (⟨_, hall⟩ | ⟨core, hco, hcne, hcall⟩)
        · exact absurd (hall '\n' (by simp)) (by decide)
        · have hcore : core = as := (List.append_inj' hco.symm rfl).1
          subst hcore
          rw [Bool.and_eq_true, List.all_eq_true]
          exact ⟨by rw [Bool.not_eq_true', isEmpty_false_iff]; exact hcne, hcall⟩
    · rw [if_neg (by simp [ha])]
      unfold pyFullMatchStrict
      constructor
      · intro h
        rw [Bool.and_eq_true, List.all_eq_true] at h
        refine Or.inl ⟨?_, h.2⟩
        have := h.1
        rw [Bool.not_eq_true', isEmpty_false_iff] at this
        exact this
      · rintro (⟨hne, hall⟩ | ⟨core, hco, _, _⟩)
        · rw [Bool.and_eq_true, List.all_eq_true]
          exact ⟨by rw [Bool.not_eq_true', isEmpty_false_iff]; exact hne, hall⟩
        · have : ([a] : List Char) = ['\n'] := (List.append_inj' hco rfl).2
          exact absurd (by injection this) ha

/-- String-level characterization of the strict regex test. -/
theorem strictMatch_iff (s : String) :
    strictMatch s = true ↔ pyFullMatchStrict s.toList :=
  strictMatchL_iff s.toList

/-- Characters accepted by the strict class are neither dots nor
backslashes. -/
theorem strict_ne {c : Char} (h : isStrictChar c = true) : c ≠ '.' ∧ c ≠ '\\' := by
  refine ⟨?_, ?_⟩ <;> (rintro rfl; exact absurd h (by decide))

/-- Characters kept by the lenient class are neither slashes nor
backslashes. -/
theorem lenient_ne {c : Char} (h : isLenientChar c = true) : c ≠ '/' ∧ c ≠ '\\' := by
  refine ⟨?_, ?_⟩ <;> (rintro rfl; exact absurd h (by decide))

/-- A hex-digit list followed by the literal `.json` characters never
contains two adjacent dots. -/
theorem no_dotdot_hexname (d : List Char) (hd : ∀ c ∈ d, isHexChar c = true) :
    listContainsSeq ['.', '.'] (d ++ ('.' :: 'j' :: 's' :: 'o' :: 'n' :: [])) = false := by
  induction d with
  | nil => decide
  | cons c t ih =>
    have hc : isHexChar c = true := hd c (List.mem_cons_self _ _)
    have ht : ∀ x ∈ t, isHexChar x = true := fun x hx => hd x (List.mem_cons_of_mem _ hx)
    have hne : ('.' == c) = false := by
      rw [beq_eq_false_iff_ne]
      intro hcontra
      exact (isHex_ne hc).2.2 hcontra.symm
    rw [List.cons_append, listContainsSeq, ih ht, listPre, hne]
    rfl

/-- The lazy range scan agrees with existential membership when every
range parses (as every configured range does). -/
theorem anyRange_iff (rs : List String) (ip : Nat)
    (hok : ∀ r ∈ rs, (parseCIDR r).isSome = true) :
    anyRange rs ip = true ↔
      ∃ r ∈ rs, ∃ np, parseCIDR r = some np ∧ ipInNet ip np.1 np.2 = true := by
  induction rs with
  | nil => simp [anyRange]
  | cons r rest ih =>
    have h1 : (parseCIDR r).isSome = true := hok r (List.mem_cons_self _ _)
    rcases Option.isSome_iff_exists.mp h1 with ⟨np, hnp⟩
    rw [anyRange, hnp, Bool.or_eq_true,
      ih (fun x hx => hok x (List.mem_cons_of_mem _ hx))]
    constructor
    · rintro (h | ⟨r2, hr2, hnp2⟩)
      · exact ⟨r, List.mem_cons_self _ _, np, hnp, h⟩
      · exact ⟨r2, List.mem_cons_of_mem _ hr2, hnp2⟩
    · rintro ⟨r2, hr2, np2, hnp2, hin⟩
      rcases List.mem_cons.mp hr2 with rfl | hr2t
      · left
        have : np = np2 := by
          have h2 := hnp.symm.trans hnp2
          injection h2
        rw [this]
        exact hin
      · exact Or.inr ⟨r2, hr2t, np2, hnp2, hin⟩

/-- The address half of the filter, characterized existentially. -/
theorem is_meta_ip_iff (addr : String) :
    is_meta_ip addr = true ↔
      ∃ ip, parseIPv4 addr = some ip ∧
        ∃ r ∈ META_IP_RANGES, ∃ np, parseCIDR r = some np ∧ ipInNet ip np.1 np.2 = true := by
  unfold is_meta_ip
  cases h : parseIPv4 addr with
  | none => simp
  | some ip =>
    rw [anyRange_iff META_IP_RANGES ip (by decide)]
    simp

/-! ### Concrete request environments used by the closed theorems -/

/-- An ordinary browser request whose generation call would succeed with
a plain fragment. -/
def plainEnv : Env :=
  ⟨"Mozilla/5.0 (X11; Linux x86_64; rv:109.0) Gecko/20100101 Firefox", "203.0.113.5",
    .response 200 (some ⟨some ["<p>page</p>"]⟩), "2026-10-12T09:00:00"⟩

/-- An ordinary browser request whose generation call is throttled with
HTTP 429. -/
def throttledEnv : Env :=
  ⟨"Mozilla/5.0 (X11; Linux x86_64; rv:109.0) Gecko/20100101 Firefox", "203.0.113.9",
    .response 429 none, "2026-10-12T11:00:00"⟩

/-- An ordinary browser request whose generation call succeeds but whose
generated text is a bare code fence, which cleans to the empty string. -/
def backtickEnv : Env :=
  ⟨"Mozilla/5.0 (X11; Linux x86_64; rv:109.0) Gecko/20100101 Firefox", "198.51.100.7",
    .response 200 (some ⟨some ["```"]⟩), "2026-10-12T10:00:00"⟩

/-- A denylisted crawler request. -/
def botEnv : Env :=
  ⟨"Googlebot/2.1 (+http://www.google.com/bot.html)", "8.8.8.8",
    .response 200 (some ⟨some ["<p>page</p>"]⟩), "2026-10-12T08:00:00"⟩

/-- Test corpus of canonical paths for the key-distinctness check. -/
def keyCorpus : List String := ["home", "about", "blog/my-post", "contact", "services"]

/-! ### Claim theorems -/

/-- C1 (code bug): for a request whose generation attempt ends in HTTP
429, the response is indeed the templated retry-later fragment, but the
pipeline then writes that fragment into the cache entry for the key,
changing the store — the code caches the transient throttling error that
the specification says must bypass the store. -/
theorem c1_throttled_result_cached :
    (handle_request throttledEnv emptyStore "home.html").resp =
      .ok (render_base rateLimitedMsg) ∧
    emptyStore (get_cache_path "home.html") = none ∧
    (handle_request throttledEnv emptyStore "home.html").store (get_cache_path "home.html") =
      some ⟨rateLimitedMsg, "2026-10-12T11:00:00"⟩ ∧
    genCalls (handle_request throttledEnv emptyStore "home.html") = 1 := by decide

/-- C2 (counterexample): the strictly valid canonical paths `a/b` and
`ab` are distinct yet receive the same cache key, because lenient
sanitization deletes the slash before hashing. -/
theorem c2_counterexample :
    strictMatch "a/b" = true ∧ strictMatch "ab" = true ∧
    ("a/b" : String) ≠ "ab" ∧ get_cache_path "a/b" = get_cache_path "ab" := by decide

/-- C2 (amended): key derivation factors through lenient sanitization —
paths with equal sanitized forms always share a key, so distinct
canonical paths differing only in stripped characters collide; across
the concrete test corpus the derived keys are pairwise distinct. -/
theorem c2_amended :
    (∀ p q : String, sanitizeLenient p = sanitizeLenient q →
      get_cache_path p = get_cache_path q) ∧
    keyCorpus.Nodup ∧ (keyCorpus.map get_cache_path).Nodup := by
  refine ⟨?_, by decide, by decide⟩
  intro p q h
  rw [get_cache_path, get_cache_path, h]

/-- C2 (witness): the sanitized-equality half of the amended claim
applied at a concrete collision pair. -/
theorem c2_amended_witness : get_cache_path "x/y/z" = get_cache_path "xyz" :=
  c2_amended.1 "x/y/z" "xyz" (by decide)

/-- C3 (counterexample): lenient sanitization keeps dots, so the
canonical form of `../etc/passwd` still contains the traversal sequence
`..` — the claim that sanitized output never contains `..` fails in
lenient mode. -/
theorem c3_counterexample :
    sanitizeLenient "../etc/passwd" = "..etcpasswd" ∧
    listContainsSeq ['.', '.'] (sanitizeLenient "../etc/passwd").toList = true := by decide

/-- C3 (amended): lenient output contains no filesystem separator at all
(slash and backslash are both stripped) though it may retain `..`; a
path accepted by strict validation never contains `..` and contains no
separator other than `/` (in particular no backslash). -/
theorem c3_amended (raw : String) :
    (sanitizeLenient raw).toList.all (fun c => !(c == '/') && !(c == '\\')) = true ∧
    (strictMatch raw = true →
      listContainsSeq ['.', '.'] raw.toList = false ∧
      raw.toList.all (fun c => !(c == '\\')) = true) := by
  constructor
  · rw [List.all_eq_true]
    intro c hc
    rw [sanitizeLenient, toList_mk] at hc
    have hlc : isLenientChar c = true := (List.mem_filter.mp hc).2
    rcases lenient_ne hlc with ⟨h1, h2⟩
    simp [h1, h2]
  · intro hm
    have hp := (strictMatch_iff raw).mp hm
    have hnodot : ∀ c ∈ raw.toList, c ≠ '.' ∧ c ≠ '\\' := by
      intro c hc
      rcases hp with ⟨_, hall⟩ | ⟨core, hco, _, hcall⟩
      · exact strict_ne (hall c hc)
      · rw [hco] at hc
        rcases List.mem_append.mp hc with hc1 | hc2
        · exact strict_ne (hcall c hc1)
        · have : c = '\n' := by simpa using hc2
          subst this
          exact ⟨by decide, by decide⟩
    constructor
    · cases hb : listContainsSeq ['.', '.'] raw.toList with
      | false => rfl
      | true => exact absurd rfl (hnodot '.' (containsSeq_head_mem hb)).1
    · rw [List.all_eq_true]
      intro c hc
      have := (hnodot c hc).2
      simp [this]

/-- C3 (witness): the strict half of the amended claim applied at the
accepted path `blog/my-post`. -/
theorem c3_amended_witness :
    listContainsSeq ['.', '.'] ("blog/my-post" : String).toList = false ∧
    ("blog/my-post" : String).toList.all (fun c => !(c == '\\')) = true :=
  (c3_amended "blog/my-post").2 (by decide)

/-- C4 (confirmed): the filter denies exactly when the lowered agent
string contains some lowered denylist entry, or the client address
parses as an IPv4 address lying in some configured CIDR range; an
address that fails to parse makes the address check allow (fail open),
while the agent check is a pure substring test with no failure path. -/
theorem c4_filter_characterization (ua addr : String) :
    (block_crawlers ua addr = true ↔
      ((∃ b ∈ BLOCKED_USER_AGENTS, strContainsStr (pyLower ua) (pyLower b) = true) ∨
       (∃ ip, parseIPv4 addr = some ip ∧
         ∃ r ∈ META_IP_RANGES, ∃ np, parseCIDR r = some np ∧ ipInNet ip np.1 np.2 = true))) ∧
    (parseIPv4 addr = none → is_meta_ip addr = false) := by
  constructor
  · rw [block_crawlers, Bool.or_eq_true, agentBlocked, List.any_eq_true, is_meta_ip_iff]
  · intro h
    rw [is_meta_ip, h]

/-- C4 (witness): the fail-open half applied at an address whose octet
overflows, which `ipaddress` rejects. -/
theorem c4_filter_witness : is_meta_ip "300.1.1.1" = false :=
  (c4_filter_characterization "Mozilla/5.0" "300.1.1.1").2 (by decide)

/-- C5 (confirmed): a request the filter denies terminates with a
forbidden response, leaves the store untouched and performs no cache
read, no cache write and no generation call. -/
theorem c5_denied_no_side_effects (env : Env) (fs : Store) (path : String)
    (h : block_crawlers env.userAgent env.remoteAddr = true) :
    (∃ msg, (handle_request env fs path).resp = .forbidden msg) ∧
    (handle_request env fs path).store = fs ∧
    (handle_request env fs path).events = [] := by
  cases ha : agentBlocked env.userAgent with
  | true =>
    rw [handle_request, if_pos ha]
    exact ⟨⟨_, rfl⟩, rfl, rfl⟩
  | false =>
    have h2 : is_meta_ip env.remoteAddr = true := by
      rw [block_crawlers, ha, Bool.false_or] at h
      exact h
    rw [handle_request, if_neg (by simp [ha]), if_pos h2]
    exact ⟨⟨_, rfl⟩, rfl, rfl⟩

/-- C5 (witness): the no-side-effect theorem applied at a concrete
denylisted crawler request. -/
theorem c5_denied_witness :
    (∃ msg, (handle_request botEnv emptyStore "home.html").resp = .forbidden msg) ∧
    (handle_request botEnv emptyStore "home.html").store = emptyStore ∧
    (handle_request botEnv emptyStore "home.html").events = [] :=
  c5_denied_no_side_effects botEnv emptyStore "home.html" (by decide)

/-- C6 (counterexample): the stripped path `a` + newline contains a
character outside the class `[a-zA-Z0-9-_/]`, yet the request is not
rejected with 400, because the Python dollar anchor accepts one final
newline. -/
theorem c6_counterexample :
    (handle_request plainEnv emptyStore "a\n.html").resp ≠ Response.badRequest ∧
    '\n' ∈ (dropLastN "a\n.html" 5).toList ∧ isStrictChar '\n' = false := by decide

/-- C6 (amended): for an allowed request with the `.html` suffix, strict
validation fails exactly when the stripped path does not match
`[a-zA-Z0-9-_/]+` after tolerating at most one trailing newline; a
failed validation yields the fixed 400 response with unchanged store and
no events; `blog/my-post` is accepted and `../etc/passwd` rejected. -/
theorem c6_amended :
    (∀ env fs path, agentBlocked env.userAgent = false →
      is_meta_ip env.remoteAddr = false →
      pyEndsWith path ".html" = true →
      (strictMatch (dropLastN path 5) = false →
        handle_request env fs path = ⟨.badRequest, fs, []⟩) ∧
      (strictMatch (dropLastN path 5) = true ↔
        pyFullMatchStrict (dropLastN path 5).toList)) ∧
    strictMatch "blog/my-post" = true ∧ strictMatch "../etc/passwd" = false := by
  refine ⟨?_, by decide, by decide⟩
  intro env fs path h1 h2 h3
  refine ⟨?_, strictMatch_iff _⟩
  intro h4
  rw [handle_request, if_neg (by simp [h1]), if_neg (by simp [h2]), dynamic_page,
    if_neg (by simp [h3]), if_pos h4]

/-- C6 (witness): the 400 branch of the amended claim at a concrete
path containing a space and an exclamation mark. -/
theorem c6_amended_witness :
    handle_request plainEnv emptyStore "bad path!.html" = ⟨.badRequest, emptyStore, []⟩ :=
  (c6_amended.1 plainEnv emptyStore "bad path!.html" (by decide) (by decide) (by decide)).1
    (by decide)

/-- C7 (counterexample): with an upstream success whose text cleans to
the empty string, the first request for `home.html` on an empty cache
makes one generation call and caches the empty fragment, and the second
identical request — which the claim says is served from cache with zero
additional calls — makes a second generation call, because the empty
cached string is falsy and treated as a miss. -/
theorem c7_counterexample :
    genCalls (handle_request backtickEnv emptyStore "home.html") = 1 ∧
    genCalls (handle_request backtickEnv
      ((handle_request backtickEnv emptyStore "home.html").store) "home.html") = 1 := by decide

/-- C7 (amended): no request ever makes more than one generation call;
for an allowed valid path on an empty cache the first request makes
exactly one call and stores the generated content, and — provided that
content is non-empty — the second identical request is served the cached
content with zero further calls. -/
theorem c7_amended :
    (∀ env fs path, genCalls (handle_request env fs path) ≤ 1) ∧
    (∀ env path,
      agentBlocked env.userAgent = false →
      is_meta_ip env.remoteAddr = false →
      pyEndsWith path ".html" = true →
      strictMatch (dropLastN path 5) = true →
      genCalls (handle_request env emptyStore path) = 1 ∧
      (handle_request env emptyStore path).store (get_cache_path path) =
        some ⟨(generate_content env.gen path).2, env.now⟩ ∧
      ((generate_content env.gen path).2 ≠ "" →
        genCalls (handle_request env ((handle_request env emptyStore path).store) path) = 0 ∧
        (handle_request env ((handle_request env emptyStore path).store) path).resp =
          .ok (render_base (generate_content env.gen path).2))) := by
  constructor
  · intro env fs path
    rw [handle_request]
    split
    · exact Nat.zero_le 1
    · split
      · exact Nat.zero_le 1
      · rw [dynamic_page]
        split
        · exact Nat.zero_le 1
        · split
          · exact Nat.zero_le 1
          · split
            · split
              · exact Nat.zero_le 1
              · exact Nat.le_refl 1
            · exact Nat.le_refl 1
  · intro env path h1 h2 h3 h4
    have hadv : handle_request env emptyStore path =
        genBranch env emptyStore path (get_cache_path path) := by
      rw [handle_request, if_neg (by simp [h1]), if_neg (by simp [h2]), dynamic_page,
        if_neg (by simp [h3]), if_neg (by simp [h4])]
      rfl
    refine ⟨by rw [hadv]; rfl, ?_, ?_⟩
    · rw [hadv]
      show cache_content path (generate_content env.gen path).2 env.now emptyStore
        (get_cache_path path) = _
      rw [cache_content]
      simp
    · intro hne
      have hstore : (handle_request env emptyStore path).store =
          cache_content path (generate_content env.gen path).2 env.now emptyStore := by
        rw [hadv]
        rfl
      rw [hstore]
      have hread : get_cached_content path
          (cache_content path (generate_content env.gen path).2 env.now emptyStore) =
          some (generate_content env.gen path).2 := by
        rw [get_cached_content, cache_content]
        simp
      rw [handle_request, if_neg (by simp [h1]), if_neg (by simp [h2]), dynamic_page,
        if_neg (by simp [h3]), if_neg (by simp [h4])]
      simp only [hread]
      rw [if_pos hne]
      exact ⟨rfl, rfl⟩

/-- C7 (witness): the amended scenario at a concrete browser request
for `home.html` with a non-empty generated fragment. -/
theorem c7_amended_witness :
    genCalls (handle_request plainEnv emptyStore "home.html") = 1 ∧
    genCalls (handle_request plainEnv
      ((handle_request plainEnv emptyStore "home.html").store) "home.html") = 0 := by
  have h := c7_amended.2 plainEnv "home.html" (by decide) (by decide) (by decide) (by decide)
  exact ⟨h.1, (h.2.2 (by decide)).1⟩

/-- C8 (confirmed): writing an entry and immediately reading the same
key returns exactly the stored content, for every store, path, content
and timestamp. -/
theorem c8_put_get_roundtrip (fs : Store) (path content now : String) :
    get_cached_content path (cache_content path content now fs) = some content := by
  rw [get_cached_content, cache_content]
  simp

/-- C9 (confirmed): key derivation is a pure function of the path — in
this embedding repeated applications are definitionally equal and there
is no per-process state, so keys are stable across restarts — and the
key is the fixed-width 32-character hexadecimal rendering of the
16-byte (128-bit) MD5 digest of the sanitized path. -/
theorem c9_key_derivation (p : String) :
    get_cache_path p = get_cache_path p ∧
    (md5BytesOf (strBytes (sanitizeLenient p))).length = 16 ∧
    (md5Hex (sanitizeLenient p)).length = 32 ∧
    (md5Hex (sanitizeLenient p)).toList.all isHexChar = true :=
  ⟨rfl, md5BytesOf_length _, md5Hex_length _, md5Hex_all_hex _⟩

/-- C10 (confirmed): for every raw path the storage location is the
fixed cache directory joined with a 32-character hexadecimal digest name
plus `.json`; the file name contains no separator and no traversal
sequence, so no input can escape the cache directory. -/
theorem c10_storage_location (p : String) :
    get_cache_path p = "/cache/" ++ (md5Hex (sanitizeLenient p) ++ ".json") ∧
    (md5Hex (sanitizeLenient p)).length = 32 ∧
    (md5Hex (sanitizeLenient p)).toList.all isHexChar = true ∧
    (md5Hex (sanitizeLenient p) ++ ".json").toList.all
      (fun c => !(c == '/') && !(c == '\\')) = true ∧
    listContainsSeq ['.', '.'] ((md5Hex (sanitizeLenient p) ++ ".json").toList) = false := by
  have hhex := md5Hex_all_hex (sanitizeLenient p)
  refine ⟨get_cache_path_eq p, md5Hex_length _, hhex, ?_, ?_⟩
  · rw [toList_append, List.all_append, Bool.and_eq_true]
    constructor
    · rw [List.all_eq_true]
      intro c hc
      rw [List.all_eq_true] at hhex
      rcases isHex_ne (hhex c hc) with ⟨h1, h2, _⟩
      simp [h1, h2]
    · decide
  · rw [toList_append]
    have hd : ∀ c ∈ (md5Hex (sanitizeLenient p)).toList, isHexChar c = true :=
      List.all_eq_true.mp hhex
    exact no_dotdot_hexname _ hd

end Anysite

